import Mathlib

/-!
Verification of the Solana wallet-flow tracker batch pipeline
(`src/app/api/analyze/route.ts` and its legacy route variant).

The TypeScript source is shallowly embedded: lamport amounts are `Int`
(JS numbers holding integral balances), SOL amounts are `Rat`
(lamports divided by `LAMPORTS_PER_SOL`), nullable JS values are
`Option`, thrown exceptions are `Except`, and the network is an oracle
function supplied as a parameter.  Mutable module state
(`currentRpcIndex`) is threaded explicitly.
-/

namespace WalletTracker

/-! ## Constants (route.ts lines 3-15) -/

def LAMPORTS_PER_SOL : ℤ := 1000000000

def MAX_RETRIES : ℕ := 3

def BASE_DELAY_MS : ℕ := 1000

def REQUEST_DELAY_MS : ℕ := 150

def DEFAULT_RPC : String := "https://mainnet.helius-rpc.com/?api-key=4d406aa7-10ef-48f8-8bc7-1e1a7a9c70eb"

def PUBLIC_RPC_ENDPOINTS : List String :=
  [DEFAULT_RPC, "https://api.mainnet-beta.solana.com"]

/-! ## Data model -/

/-- The `WalletFlow` record (route.ts lines 17-26).  SOL amounts are
rationals; `error?: string` becomes `Option String`. -/
structure WalletFlow where
  address : String
  totalInflowSol : ℚ
  totalOutflowSol : ℚ
  netFlowSol : ℚ
  transactionCount : ℕ
  firstTxTime : Option ℤ
  lastTxTime : Option ℤ
  error : Option String := none
deriving Repr, DecidableEq

/-- JS `x || null` on a nullable number: `null`/`undefined` and the
falsy number `0` both collapse to `null`. -/
def jsOrNull : Option ℤ → Option ℤ
  | none => none
  | some t => if t = 0 then none else some t

/-- One entry of `getSignaturesForAddress` output: signature id,
`blockTime` (nullable), and the `err` field viewed as a Boolean
(truthy means the provider recorded the transaction as failed). -/
structure SigInfo where
  signature : String
  blockTime : Option ℤ
  err : Bool
deriving Repr, DecidableEq

/-- `tx.meta`: pre/post lamport balances, indexed like `accountKeys`. -/
structure TxMeta where
  preBalances : List ℤ
  postBalances : List ℤ
deriving Repr, DecidableEq

/-- A resolved transaction as consumed by `analyzeWallet`:
`meta` may be absent; `accountKeys` after the `pubkey` normalization
at route.ts lines 234-237 is a list of address strings. -/
structure Tx where
  meta : Option TxMeta
  accountKeys : List String
deriving Repr, DecidableEq

/-- Oracle for `getTransaction` (route.ts lines 176-184): a signature
resolves to a transaction or to `null` (RPC error / not found). -/
def TxOracle := String → Option Tx

/-! ## analyzeWallet (route.ts lines 186-282) -/

/-- Accumulator of the transaction loop at route.ts lines 206-256,
extended with the list of signatures actually sent to
`getTransaction` (the network trace, newest first). -/
structure LoopAcc where
  totalInflow : ℤ
  totalOutflow : ℤ
  processed : ℕ
  fetched : List String
deriving Repr, DecidableEq

/-- The balance-delta update at route.ts lines 239-253: locate the
wallet among the account keys and, when the index is within both
balance arrays, add a positive delta to the inflow or its absolute
value to the outflow. -/
def applyDelta (walletAddress : String) (tx : Tx) (meta : TxMeta)
    (acc : LoopAcc) : LoopAcc :=
  match tx.accountKeys.findIdx? (· = walletAddress) with
  | none => acc
  | some walletIndex =>
    if walletIndex < meta.preBalances.length ∧
        walletIndex < meta.postBalances.length then
      let diff := meta.postBalances.getD walletIndex 0 -
        meta.preBalances.getD walletIndex 0
      if diff > 0 then
        { acc with totalInflow := acc.totalInflow + diff }
      else
        { acc with totalOutflow := acc.totalOutflow + |diff| }
    else acc

/-- The body of the `for` loop at route.ts lines 216-256: skip
references marked `err` without fetching, fetch the rest, skip
resolutions that return `null` or lack `meta`, otherwise add the
balance delta for the wallet and increment `processed`. -/
def processTxs (oracle : TxOracle) (walletAddress : String) :
    List SigInfo → LoopAcc → LoopAcc
  | [], acc => acc
  | sigInfo :: rest, acc =>
    if sigInfo.err then
      processTxs oracle walletAddress rest acc
    else
      let acc := { acc with fetched := acc.fetched ++ [sigInfo.signature] }
      match oracle sigInfo.signature with
      | none => processTxs oracle walletAddress rest acc
      | some tx =>
        match tx.meta with
        | none => processTxs oracle walletAddress rest acc
        | some meta =>
          let acc' := applyDelta walletAddress tx meta acc
          processTxs oracle walletAddress rest
            { acc' with processed := acc'.processed + 1 }

/-- The error-bearing `WalletFlow` built in the `catch` branches
(route.ts lines 271-280). -/
def errorFlow (walletAddress msg : String) : WalletFlow :=
  { address := walletAddress, totalInflowSol := 0, totalOutflowSol := 0,
    netFlowSol := 0, transactionCount := 0, firstTxTime := none,
    lastTxTime := none, error := some msg }

/-- The zero-history `WalletFlow` (route.ts lines 195-203). -/
def emptyFlow (walletAddress : String) : WalletFlow :=
  { address := walletAddress, totalInflowSol := 0, totalOutflowSol := 0,
    netFlowSol := 0, transactionCount := 0, firstTxTime := none,
    lastTxTime := none, error := none }

/-- `analyzeWallet` (route.ts lines 186-282), with the signature
history supplied as the outcome of `getSignatures` (`Except` models
the throw caught at line 270) and `getTransaction` as an oracle.
Returns the `WalletFlow` together with the `getTransaction` network
trace. -/
def analyzeWalletRun (oracle : TxOracle) (walletAddress : String)
    (maxTransactions : ℕ)
    (history : Except String (List SigInfo)) : WalletFlow × List String :=
  match history with
  | .error msg => (errorFlow walletAddress msg, [])
  | .ok signatures =>
    if signatures.isEmpty then (emptyFlow walletAddress, [])
    else
      let firstTxTime := jsOrNull (signatures.getLast?.bind (·.blockTime))
      let lastTxTime := jsOrNull (signatures.head?.bind (·.blockTime))
      let txsToProcess := signatures.take (min maxTransactions 100)
      let acc := processTxs oracle walletAddress txsToProcess
        ⟨0, 0, 0, []⟩
      let inflowSol : ℚ := (acc.totalInflow : ℚ) / (LAMPORTS_PER_SOL : ℚ)
      let outflowSol : ℚ := (acc.totalOutflow : ℚ) / (LAMPORTS_PER_SOL : ℚ)
      ({ address := walletAddress, totalInflowSol := inflowSol,
         totalOutflowSol := outflowSol,
         netFlowSol := inflowSol - outflowSol,
         transactionCount := acc.processed,
         firstTxTime := firstTxTime, lastTxTime := lastTxTime,
         error := none }, acc.fetched)

/-- The `WalletFlow` component of `analyzeWalletRun`. -/
def analyzeWallet (oracle : TxOracle) (walletAddress : String)
    (maxTransactions : ℕ)
    (history : Except String (List SigInfo)) : WalletFlow :=
  (analyzeWalletRun oracle walletAddress maxTransactions history).1

/-! ## analyzeWalletHelius (route.ts lines 388-485, second route variant) -/

/-- `PARALLEL_WALLETS` (route.ts line 344). -/
def PARALLEL_WALLETS : ℕ := 2

/-- One entry of `tx.nativeTransfers` (route.ts lines 361-365). -/
structure NativeTransfer where
  fromUserAccount : String
  toUserAccount : String
  amount : ℤ
deriving Repr, DecidableEq

/-- A Helius enhanced-API transaction (route.ts lines 358-366).
`timestamp` is nullable in the guarded reads at lines 461-462;
`nativeTransfers` may be absent (the `!tx.nativeTransfers` guard). -/
structure HeliusTransaction where
  signature : String
  timestamp : Option ℤ
  nativeTransfers : Option (List NativeTransfer)
deriving Repr, DecidableEq

/-- Outcome of one `fetch` of the Helius transactions URL. -/
inductive HeliusResponse where
  | rateLimited
  | apiError (status : ℕ)
  | thrown (msg : String)
  | txs (l : List HeliusTransaction)
deriving Repr, DecidableEq

/-- Total inflow in lamports (route.ts lines 448-458): amounts of
native transfers whose `toUserAccount` is the wallet, over
transactions that carry a `nativeTransfers` list. -/
def heliusInflow (walletAddress : String)
    (transactions : List HeliusTransaction) : ℤ :=
  (transactions.map (fun tx =>
    match tx.nativeTransfers with
    | none => 0
    | some transfers =>
      ((transfers.filter (·.toUserAccount = walletAddress)).map
        (·.amount)).sum)).sum

/-- Total outflow in lamports: amounts of native transfers whose
`fromUserAccount` is the wallet. -/
def heliusOutflow (walletAddress : String)
    (transactions : List HeliusTransaction) : ℤ :=
  (transactions.map (fun tx =>
    match tx.nativeTransfers with
    | none => 0
    | some transfers =>
      ((transfers.filter (·.fromUserAccount = walletAddress)).map
        (·.amount)).sum)).sum

/-- `analyzeWalletHelius` (route.ts lines 388-485).  The response
oracle maps the retry count of the attempt to the fetch outcome.
Returns the list of retry delays in ms (each `1000 * (retryCount+1)`,
route.ts line 402) together with the `WalletFlow`. -/
def analyzeWalletHelius (oracle : ℕ → HeliusResponse)
    (walletAddress : String) (retryCount : ℕ) : List ℕ × WalletFlow :=
  match oracle retryCount with
  | .rateLimited =>
    if h : retryCount < 3 then
      let rec_ := analyzeWalletHelius oracle walletAddress (retryCount + 1)
      (1000 * (retryCount + 1) :: rec_.1, rec_.2)
    else
      ([], errorFlow walletAddress "Rate limited")
  | .apiError status =>
    ([], errorFlow walletAddress ("API error: " ++ toString status))
  | .thrown msg => ([], errorFlow walletAddress msg)
  | .txs transactions =>
    if transactions.isEmpty then ([], emptyFlow walletAddress)
    else
      let totalInflow := heliusInflow walletAddress transactions
      let totalOutflow := heliusOutflow walletAddress transactions
      let firstTxTime := jsOrNull (transactions.getLast?.bind (·.timestamp))
      let lastTxTime := jsOrNull (transactions.head?.bind (·.timestamp))
      ([], { address := walletAddress,
             totalInflowSol := (totalInflow : ℚ) / (LAMPORTS_PER_SOL : ℚ),
             totalOutflowSol := (totalOutflow : ℚ) / (LAMPORTS_PER_SOL : ℚ),
             netFlowSol := ((totalInflow - totalOutflow : ℤ) : ℚ) /
               (LAMPORTS_PER_SOL : ℚ),
             transactionCount := transactions.length,
             firstTxTime := firstTxTime, lastTxTime := lastTxTime,
             error := none })
  termination_by 3 + 1 - retryCount

/-! ## Batch pipelines -/

/-- `processWalletsParallel` (route.ts lines 488-508): wallets are
consumed in chunks of `PARALLEL_WALLETS`; `Promise.all` places each
chunk result at the index of its wallet, so the chunk contributes
`chunk.map analyze`, appended in chunk order. -/
def processWalletsParallel (analyze : String → WalletFlow) :
    List String → List WalletFlow
  | [] => []
  | w :: rest =>
    let chunk := (w :: rest).take PARALLEL_WALLETS
    chunk.map analyze ++
      processWalletsParallel analyze ((w :: rest).drop PARALLEL_WALLETS)
  termination_by wallets => wallets.length
  decreasing_by
    simp only [List.length_drop, List.length_cons, PARALLEL_WALLETS]
    omega

/-- The aggregate record computed by both `POST` handlers
(route.ts lines 323-330 and 535-542). -/
structure Aggregate where
  totalWallets : ℕ
  totalInflowSol : ℚ
  totalOutflowSol : ℚ
  netFlowSol : ℚ
  totalTransactions : ℕ
  errors : ℕ
deriving Repr, DecidableEq

/-- `aggregate` (route.ts lines 323-330): `reduce`-sums over the
result list and a count of error-bearing entries. -/
def computeAggregate (results : List WalletFlow) : Aggregate :=
  { totalWallets := results.length
    totalInflowSol := (results.map (·.totalInflowSol)).sum
    totalOutflowSol := (results.map (·.totalOutflowSol)).sum
    netFlowSol := (results.map (·.netFlowSol)).sum
    totalTransactions := (results.map (·.transactionCount)).sum
    errors := (results.filter (fun r => r.error.isSome)).length }

/-! ## Endpoint rotation and rpcCall (route.ts lines 48-138) -/

/-- `getNextRpcEndpoint` (route.ts lines 48-64).  The module-level
`currentRpcIndex` is threaded explicitly: the function returns the
updated index together with the next endpoint (or `none`). -/
def getNextRpcEndpoint (currentRpcIndex : ℕ) (currentUrl : String) :
    ℕ × Option String :=
  if currentUrl ∉ PUBLIC_RPC_ENDPOINTS then (currentRpcIndex, none)
  else
    let newIndex := (currentRpcIndex + 1) % PUBLIC_RPC_ENDPOINTS.length
    let nextEndpoint := PUBLIC_RPC_ENDPOINTS.getD newIndex ""
    if nextEndpoint = currentUrl then (newIndex, none)
    else (newIndex, some nextEndpoint)

/-- Outcome of one `fetch` inside `rpcCall`: an HTTP status, or a
thrown `TypeError` (network failure). -/
inductive RpcResponse where
  | status (code : ℕ)
  | networkError
deriving Repr, DecidableEq

/-- One attempt made by `rpcCall`: the endpoint fetched and the delay
awaited immediately before the fetch. -/
structure Attempt where
  url : String
  waitBefore : ℕ
deriving Repr, DecidableEq

/-- Result of the `rpcCall` model: the attempt trace in order, the
final `currentRpcIndex`, and success or the thrown error message. -/
structure RpcOutcome where
  attempts : List Attempt
  finalIndex : ℕ
  result : Except String Unit
deriving Repr

/-- `rpcCall` (route.ts lines 66-138).  The oracle gives each
endpoint a fixed response (permanent behavior per endpoint).
`waitBefore` is the delay awaited before the current fetch (0 for the
top-level call).  Mirrors the source: on 429, rotate if a next
endpoint exists and `endpointsTried < pool size` (after a
`BASE_DELAY_MS` wait), else throw once `retryCount >= MAX_RETRIES`,
else back off `BASE_DELAY_MS * 2 ^ retryCount` and retry the same
endpoint; on status >= 500 or 401/403, rotate under the same guard
(after `REQUEST_DELAY_MS`) else throw; on a network error, rotate
under the same guard else back off exponentially while
`retryCount < MAX_RETRIES`, else rethrow.  Note `getNextRpcEndpoint`
advances the shared index even when its result is unused. -/
def rpcCall (oracle : String → RpcResponse) (rpcUrl : String)
    (retryCount endpointsTried currentRpcIndex waitBefore : ℕ) :
    RpcOutcome :=
  let att : Attempt := ⟨rpcUrl, waitBefore⟩
  match oracle rpcUrl with
  | .status code =>
    if code = 429 then
      let rot := getNextRpcEndpoint currentRpcIndex rpcUrl
      match rot.2 with
      | some nextEndpoint =>
        if h2 : endpointsTried < PUBLIC_RPC_ENDPOINTS.length then
          let rest := rpcCall oracle nextEndpoint 0 (endpointsTried + 1)
            rot.1 BASE_DELAY_MS
          ⟨att :: rest.attempts, rest.finalIndex, rest.result⟩
        else if h3 : retryCount ≥ MAX_RETRIES then
          ⟨[att], rot.1, .error "Rate limit exceeded on all endpoints. Please try again in a few minutes or use a dedicated RPC endpoint."⟩
        else
          let rest := rpcCall oracle rpcUrl (retryCount + 1) endpointsTried
            rot.1 (BASE_DELAY_MS * 2 ^ retryCount)
          ⟨att :: rest.attempts, rest.finalIndex, rest.result⟩
      | none =>
        if h3 : retryCount ≥ MAX_RETRIES then
          ⟨[att], rot.1, .error "Rate limit exceeded on all endpoints. Please try again in a few minutes or use a dedicated RPC endpoint."⟩
        else
          let rest := rpcCall oracle rpcUrl (retryCount + 1) endpointsTried
            rot.1 (BASE_DELAY_MS * 2 ^ retryCount)
          ⟨att :: rest.attempts, rest.finalIndex, rest.result⟩
    else if 200 ≤ code ∧ code < 300 then ⟨[att], currentRpcIndex, .ok ()⟩
    else if code ≥ 500 ∨ code = 403 ∨ code = 401 then
      let rot := getNextRpcEndpoint currentRpcIndex rpcUrl
      match rot.2 with
      | some nextEndpoint =>
        if h2 : endpointsTried < PUBLIC_RPC_ENDPOINTS.length then
          let rest := rpcCall oracle nextEndpoint 0 (endpointsTried + 1)
            rot.1 REQUEST_DELAY_MS
          ⟨att :: rest.attempts, rest.finalIndex, rest.result⟩
        else
          ⟨[att], rot.1, .error ("RPC request failed: " ++ toString code)⟩
      | none =>
        ⟨[att], rot.1, .error ("RPC request failed: " ++ toString code)⟩
    else
      ⟨[att], currentRpcIndex, .error ("RPC request failed: " ++ toString code)⟩
  | .networkError =>
    let rot := getNextRpcEndpoint currentRpcIndex rpcUrl
    match rot.2 with
    | some nextEndpoint =>
      if h2 : endpointsTried < PUBLIC_RPC_ENDPOINTS.length then
        let rest := rpcCall oracle nextEndpoint 0 (endpointsTried + 1)
          rot.1 REQUEST_DELAY_MS
        ⟨att :: rest.attempts, rest.finalIndex, rest.result⟩
      else if h3 : retryCount < MAX_RETRIES then
        let rest := rpcCall oracle rpcUrl (retryCount + 1) endpointsTried
          rot.1 (BASE_DELAY_MS * 2 ^ retryCount)
        ⟨att :: rest.attempts, rest.finalIndex, rest.result⟩
      else
        ⟨[att], rot.1, .error "network error"⟩
    | none =>
      if h3 : retryCount < MAX_RETRIES then
        let rest := rpcCall oracle rpcUrl (retryCount + 1) endpointsTried
          rot.1 (BASE_DELAY_MS * 2 ^ retryCount)
        ⟨att :: rest.attempts, rest.finalIndex, rest.result⟩
      else
        ⟨[att], rot.1, .error "network error"⟩
  termination_by
    (PUBLIC_RPC_ENDPOINTS.length - endpointsTried, MAX_RETRIES - retryCount)
  decreasing_by
  all_goals simp only [Prod.lex_iff, true_and, lt_self_iff_false, false_or]
  all_goals omega

/-- The legacy `rpcCall` of the oldest route variant (no rotation):
repeats the same endpoint with `500 * 2 ^ retryCount` backoff on 429
or network error while `retryCount < 5`, then throws.  Returns the
backoff delays awaited and the outcome. -/
def rpcCallLegacy (oracle : ℕ → RpcResponse) (retryCount : ℕ) :
    List ℕ × Except String Unit :=
  match oracle retryCount with
  | .status code =>
    if code = 429 then
      if h : retryCount ≥ 5 then
        ([], .error "Rate limit exceeded. Please use a dedicated RPC endpoint (Helius, QuickNode, etc.) or try again later.")
      else
        let rest := rpcCallLegacy oracle (retryCount + 1)
        (500 * 2 ^ retryCount :: rest.1, rest.2)
    else if 200 ≤ code ∧ code < 300 then ([], .ok ())
    else ([], .error ("RPC request failed: " ++ toString code))
  | .networkError =>
    if h : retryCount < 5 then
      let rest := rpcCallLegacy oracle (retryCount + 1)
      (500 * 2 ^ retryCount :: rest.1, rest.2)
    else ([], .error "network error")
  termination_by 5 + 1 - retryCount

/-! ## Helper lemmas -/

theorem pwp_eq_map (analyze : String → WalletFlow) :
    ∀ wallets : List String,
      processWalletsParallel analyze wallets = wallets.map analyze
  | [] => by simp [processWalletsParallel]
  | w :: rest => by
    rw [processWalletsParallel]
    rw [pwp_eq_map analyze ((w :: rest).drop PARALLEL_WALLETS)]
    rw [← List.map_append, List.take_append_drop]
  termination_by wallets => wallets.length
  decreasing_by
    simp only [List.length_drop, List.length_cons, PARALLEL_WALLETS]
    omega

theorem analyzeWallet_address (oracle : TxOracle) (walletAddress : String)
    (maxTransactions : ℕ) (history : Except String (List SigInfo)) :
    (analyzeWallet oracle walletAddress maxTransactions history).address =
      walletAddress := by
  cases history with
  | error msg => simp [analyzeWallet, analyzeWalletRun, errorFlow]
  | ok signatures =>
    simp only [analyzeWallet, analyzeWalletRun]
    split
    · simp [emptyFlow]
    · simp

theorem analyzeWalletHelius_address (oracle : ℕ → HeliusResponse)
    (walletAddress : String) :
    ∀ retryCount : ℕ,
      ((analyzeWalletHelius oracle walletAddress retryCount).2).address =
        walletAddress
  | retryCount => by
    rw [analyzeWalletHelius]
    cases oracle retryCount with
    | rateLimited =>
      by_cases h3 : retryCount < 3
      · simpa [h3] using
          analyzeWalletHelius_address oracle walletAddress (retryCount + 1)
      · simp [h3, errorFlow]
    | apiError status => simp [errorFlow]
    | thrown msg => simp [errorFlow]
    | txs transactions =>
      by_cases he : transactions.isEmpty <;> simp [he, emptyFlow]
  termination_by retryCount => 3 + 1 - retryCount
  decreasing_by omega

theorem analyzeWallet_netFlow (oracle : TxOracle) (walletAddress : String)
    (maxTransactions : ℕ) (history : Except String (List SigInfo)) :
    (analyzeWallet oracle walletAddress maxTransactions history).netFlowSol =
      (analyzeWallet oracle walletAddress maxTransactions
        history).totalInflowSol -
      (analyzeWallet oracle walletAddress maxTransactions
        history).totalOutflowSol := by
  cases history with
  | error msg => simp [analyzeWallet, analyzeWalletRun, errorFlow]
  | ok signatures =>
    simp only [analyzeWallet, analyzeWalletRun]
    split
    · simp [emptyFlow]
    · simp

theorem analyzeWalletHelius_netFlow (oracle : ℕ → HeliusResponse)
    (walletAddress : String) :
    ∀ retryCount : ℕ,
      ((analyzeWalletHelius oracle walletAddress retryCount).2).netFlowSol =
        ((analyzeWalletHelius oracle walletAddress
          retryCount).2).totalInflowSol -
        ((analyzeWalletHelius oracle walletAddress
          retryCount).2).totalOutflowSol
  | retryCount => by
    rw [analyzeWalletHelius]
    cases oracle retryCount with
    | rateLimited =>
      by_cases h3 : retryCount < 3
      · simpa [h3] using
          analyzeWalletHelius_netFlow oracle walletAddress (retryCount + 1)
      · simp [h3, errorFlow]
    | apiError status => simp [errorFlow]
    | thrown msg => simp [errorFlow]
    | txs transactions =>
      by_cases he : transactions.isEmpty
      · simp [he, emptyFlow]
      · simp only [he, Bool.false_eq_true, if_false]
        push_cast
        rw [sub_div]
  termination_by retryCount => 3 + 1 - retryCount
  decreasing_by omega

theorem map_address_eq (f : String → WalletFlow)
    (hf : ∀ w, (f w).address = w) :
    ∀ wallets : List String, (wallets.map f).map (·.address) = wallets := by
  intro wallets
  induction wallets with
  | nil => rfl
  | cons w rest ih => simp [hf w, ih]

/-! ## C1 and C2 -/

/-- C1: for every `WalletFlow` returned by the pipeline, whether
produced by `analyzeWallet` or `analyzeWalletHelius` and whether or
not it carries an error, `netFlowSol = totalInflowSol -
totalOutflowSol`. -/
theorem netFlow_invariant (oracle : TxOracle)
    (horacle : ℕ → HeliusResponse) (walletAddress : String)
    (maxTransactions retryCount : ℕ)
    (history : Except String (List SigInfo)) :
    (analyzeWallet oracle walletAddress maxTransactions
        history).netFlowSol =
      (analyzeWallet oracle walletAddress maxTransactions
        history).totalInflowSol -
      (analyzeWallet oracle walletAddress maxTransactions
        history).totalOutflowSol ∧
    ((analyzeWalletHelius horacle walletAddress
        retryCount).2).netFlowSol =
      ((analyzeWalletHelius horacle walletAddress
        retryCount).2).totalInflowSol -
      ((analyzeWalletHelius horacle walletAddress
        retryCount).2).totalOutflowSol :=
  ⟨analyzeWallet_netFlow oracle walletAddress maxTransactions history,
   analyzeWalletHelius_netFlow horacle walletAddress retryCount⟩

/-- C2: for every input list of wallet addresses, the batch produces
exactly one `WalletFlow` per requested address, in input order.  Both
pipelines are modeled with the per-wallet analysis as an arbitrary
oracle-driven function, so the result placement is independent of how
the underlying fetches complete: the sequential `POST` loop is a
`List.map`, and `processWalletsParallel` equals the same `List.map`
(each `Promise.all` chunk places results at the index of its
wallet). -/
theorem batch_order_preserved (txO : TxOracle)
    (histO : String → Except String (List SigInfo))
    (horacles : String → ℕ → HeliusResponse) (maxTransactions : ℕ)
    (wallets : List String) :
    (processWalletsParallel
        (fun w => (analyzeWalletHelius (horacles w) w 0).2) wallets =
      wallets.map (fun w => (analyzeWalletHelius (horacles w) w 0).2)) ∧
    (processWalletsParallel
        (fun w => (analyzeWalletHelius (horacles w) w 0).2)
        wallets).length = wallets.length ∧
    (processWalletsParallel
        (fun w => (analyzeWalletHelius (horacles w) w 0).2)
        wallets).map (·.address) = wallets ∧
    ((wallets.map (fun w =>
        analyzeWallet txO w maxTransactions (histO w))).length =
      wallets.length) ∧
    (wallets.map (fun w =>
        analyzeWallet txO w maxTransactions (histO w))).map
      (·.address) = wallets := by
  refine ⟨pwp_eq_map _ wallets, ?_, ?_, by simp, ?_⟩
  · rw [pwp_eq_map]; simp
  · rw [pwp_eq_map]
    exact map_address_eq _
      (fun w => analyzeWalletHelius_address (horacles w) w 0) wallets
  · exact map_address_eq _
      (fun w => analyzeWallet_address txO w maxTransactions (histO w))
      wallets

/-! ## C7: empty history -/

/-- C7: a wallet whose fetched transaction history is empty yields a
`WalletFlow` with every numeric field zero, both timestamps `null`,
and no `error` field set, in both pipelines — distinguishable from a
fetch error. -/
theorem empty_history_zero_flow (oracle : TxOracle)
    (horacle : ℕ → HeliusResponse) (walletAddress : String)
    (maxTransactions retryCount : ℕ)
    (hresp : horacle retryCount = .txs []) :
    analyzeWallet oracle walletAddress maxTransactions (.ok []) =
      { address := walletAddress, totalInflowSol := 0,
        totalOutflowSol := 0, netFlowSol := 0, transactionCount := 0,
        firstTxTime := none, lastTxTime := none, error := none } ∧
    (analyzeWalletHelius horacle walletAddress retryCount).2 =
      { address := walletAddress, totalInflowSol := 0,
        totalOutflowSol := 0, netFlowSol := 0, transactionCount := 0,
        firstTxTime := none, lastTxTime := none, error := none } := by
  constructor
  · simp [analyzeWallet, analyzeWalletRun, emptyFlow]
  · rw [analyzeWalletHelius, hresp]
    simp [emptyFlow]

/-- Witness for C7 at a concrete oracle and wallet. -/
theorem empty_history_zero_flow_witness :
    (fun _ : ℕ => HeliusResponse.txs []) 0 = .txs [] ∧
    (analyzeWallet (fun _ => none) "w" 100 (.ok []) =
      { address := "w", totalInflowSol := 0, totalOutflowSol := 0,
        netFlowSol := 0, transactionCount := 0, firstTxTime := none,
        lastTxTime := none, error := none } ∧
    (analyzeWalletHelius (fun _ => .txs []) "w" 0).2 =
      { address := "w", totalInflowSol := 0, totalOutflowSol := 0,
        netFlowSol := 0, transactionCount := 0, firstTxTime := none,
        lastTxTime := none, error := none }) :=
  ⟨rfl, empty_history_zero_flow (fun _ => none) (fun _ => .txs [])
    "w" 100 0 rfl⟩

/-! ## C10: boundary timestamps -/

/-- C10: for a wallet with non-empty history, `firstTxTime` is taken
from the last (oldest) entry of the newest-first reference sequence
and `lastTxTime` from the first (newest) entry, where an absent,
null, or exactly-zero timestamp yields `null` — so a genuine
timestamp of `0` is reported identically to a missing one.  Holds for
both `analyzeWallet` (blockTime of the signature list) and
`analyzeWalletHelius` (timestamp of the transaction list). -/
theorem boundary_timestamps (oracle : TxOracle)
    (horacle : ℕ → HeliusResponse) (walletAddress : String)
    (maxTransactions retryCount : ℕ) (signatures : List SigInfo)
    (transactions : List HeliusTransaction)
    (hs : signatures ≠ []) (ht : transactions ≠ [])
    (hresp : horacle retryCount = .txs transactions) :
    ((analyzeWallet oracle walletAddress maxTransactions
        (.ok signatures)).firstTxTime =
      jsOrNull (signatures.getLast hs).blockTime ∧
     (analyzeWallet oracle walletAddress maxTransactions
        (.ok signatures)).lastTxTime =
      jsOrNull (signatures.head hs).blockTime) ∧
    (((analyzeWalletHelius horacle walletAddress
        retryCount).2).firstTxTime =
      jsOrNull (transactions.getLast ht).timestamp ∧
     ((analyzeWalletHelius horacle walletAddress
        retryCount).2).lastTxTime =
      jsOrNull (transactions.head ht).timestamp) ∧
    (∀ t : Option ℤ, jsOrNull t = none ↔ t = none ∨ t = some 0) ∧
    jsOrNull (some 0) = jsOrNull none := by
  refine ⟨?_, ?_, ?_, rfl⟩
  · have hgl : signatures.getLast? = some (signatures.getLast hs) :=
      List.getLast?_eq_getLast signatures hs
    have hhd : signatures.head? = some (signatures.head hs) :=
      List.head?_eq_head hs
    simp [analyzeWallet, analyzeWalletRun, List.isEmpty_iff, hs, hgl, hhd]
  · have hgl : transactions.getLast? = some (transactions.getLast ht) :=
      List.getLast?_eq_getLast transactions ht
    have hhd : transactions.head? = some (transactions.head ht) :=
      List.head?_eq_head ht
    rw [analyzeWalletHelius, hresp]
    simp [List.isEmpty_iff, ht, hgl, hhd]
  · intro t
    cases t with
    | none => simp [jsOrNull]
    | some t =>
      by_cases h0 : t = 0 <;> simp [jsOrNull, h0]

/-- Witness for C10: a two-entry history whose oldest entry carries
`blockTime = 0` (reported as `null`) and whose newest carries a real
timestamp. -/
theorem boundary_timestamps_witness :
    ([⟨"s2", some 1700000000, false⟩, ⟨"s1", some 0, false⟩] :
        List SigInfo) ≠ [] ∧
    ([⟨"h2", some 1700000000, none⟩, ⟨"h1", none, none⟩] :
        List HeliusTransaction) ≠ [] ∧
    ((analyzeWallet (fun _ => none) "w" 100
        (.ok [⟨"s2", some 1700000000, false⟩,
              ⟨"s1", some 0, false⟩])).firstTxTime = none ∧
     (analyzeWallet (fun _ => none) "w" 100
        (.ok [⟨"s2", some 1700000000, false⟩,
              ⟨"s1", some 0, false⟩])).lastTxTime =
          some 1700000000) ∧
    (((analyzeWalletHelius
        (fun _ => .txs [⟨"h2", some 1700000000, none⟩,
                        ⟨"h1", none, none⟩]) "w" 0).2).firstTxTime =
        none ∧
     ((analyzeWalletHelius
        (fun _ => .txs [⟨"h2", some 1700000000, none⟩,
                        ⟨"h1", none, none⟩]) "w" 0).2).lastTxTime =
        some 1700000000) := by
  have h := boundary_timestamps (fun _ => none)
    (fun _ => .txs [⟨"h2", some 1700000000, none⟩, ⟨"h1", none, none⟩])
    "w" 100 0
    [⟨"s2", some 1700000000, false⟩, ⟨"s1", some 0, false⟩]
    [⟨"h2", some 1700000000, none⟩, ⟨"h1", none, none⟩]
    (by decide) (by decide) rfl
  refine ⟨by decide, by decide, ?_, ?_⟩
  · exact ⟨h.1.1, h.1.2⟩
  · exact ⟨h.2.1.1, h.2.1.2⟩

/-! ## C6: transactionCount -/

/-- A reference resolves when `getTransaction` returns a transaction
that carries `meta` (route.ts lines 226-229 skip the rest). -/
def resolvesRef (oracle : TxOracle) (sigInfo : SigInfo) : Bool :=
  match oracle sigInfo.signature with
  | none => false
  | some tx => tx.meta.isSome

/-- A reference is counted when it is not provider-failed and its
detail resolution succeeds. -/
def countedRef (oracle : TxOracle) (sigInfo : SigInfo) : Bool :=
  !sigInfo.err && resolvesRef oracle sigInfo

theorem applyDelta_processed (walletAddress : String) (tx : Tx)
    (meta : TxMeta) (acc : LoopAcc) :
    (applyDelta walletAddress tx meta acc).processed = acc.processed := by
  unfold applyDelta
  split
  · rfl
  · split
    · dsimp only
      split <;> rfl
    · rfl

theorem applyDelta_fetched (walletAddress : String) (tx : Tx)
    (meta : TxMeta) (acc : LoopAcc) :
    (applyDelta walletAddress tx meta acc).fetched = acc.fetched := by
  unfold applyDelta
  split
  · rfl
  · split
    · dsimp only
      split <;> rfl
    · rfl

theorem applyDelta_flows_congr (walletAddress : String) (tx : Tx)
    (meta : TxMeta) (acc acc' : LoopAcc)
    (h1 : acc.totalInflow = acc'.totalInflow)
    (h2 : acc.totalOutflow = acc'.totalOutflow) :
    (applyDelta walletAddress tx meta acc).totalInflow =
      (applyDelta walletAddress tx meta acc').totalInflow ∧
    (applyDelta walletAddress tx meta acc).totalOutflow =
      (applyDelta walletAddress tx meta acc').totalOutflow := by
  unfold applyDelta
  split
  · exact ⟨h1, h2⟩
  · split
    · dsimp only
      split
      · exact ⟨by simp [h1], h2⟩
      · exact ⟨h1, by simp [h2]⟩
    · exact ⟨h1, h2⟩

theorem processTxs_processed (oracle : TxOracle) (walletAddress : String) :
    ∀ (l : List SigInfo) (acc : LoopAcc),
      (processTxs oracle walletAddress l acc).processed =
        acc.processed + (l.filter (countedRef oracle)).length := by
  intro l
  induction l with
  | nil => intro acc; simp [processTxs]
  | cons sigInfo rest ih =>
    intro acc
    by_cases herr : sigInfo.err
    · simp [processTxs, herr, ih, countedRef]
    · cases horacle : oracle sigInfo.signature with
      | none =>
        simp [processTxs, herr, horacle, ih, countedRef, resolvesRef]
      | some tx =>
        cases hmeta : tx.meta with
        | none =>
          simp [processTxs, herr, horacle, hmeta, ih, countedRef,
            resolvesRef]
        | some meta =>
          have hc : countedRef oracle sigInfo = true := by
            simp [countedRef, resolvesRef, herr, horacle, hmeta]
          simp [processTxs, herr, horacle, hmeta, ih, hc,
            applyDelta_processed]
          omega

theorem processTxs_fetched (oracle : TxOracle) (walletAddress : String) :
    ∀ (l : List SigInfo) (acc : LoopAcc),
      (processTxs oracle walletAddress l acc).fetched =
        acc.fetched ++
          (l.filter (fun s => !s.err)).map (·.signature) := by
  intro l
  induction l with
  | nil => intro acc; simp [processTxs]
  | cons sigInfo rest ih =>
    intro acc
    by_cases herr : sigInfo.err
    · simp [processTxs, herr, ih]
    · cases horacle : oracle sigInfo.signature with
      | none => simp [processTxs, herr, horacle, ih]
      | some tx =>
        cases hmeta : tx.meta with
        | none => simp [processTxs, herr, horacle, hmeta, ih]
        | some meta =>
          simp [processTxs, herr, horacle, hmeta, ih,
            applyDelta_fetched]

theorem processTxs_flows_of_counted (oracle : TxOracle)
    (walletAddress : String) :
    ∀ (l : List SigInfo) (acc acc' : LoopAcc),
      acc.totalInflow = acc'.totalInflow →
      acc.totalOutflow = acc'.totalOutflow →
      (processTxs oracle walletAddress l acc).totalInflow =
        (processTxs oracle walletAddress
          (l.filter (countedRef oracle)) acc').totalInflow ∧
      (processTxs oracle walletAddress l acc).totalOutflow =
        (processTxs oracle walletAddress
          (l.filter (countedRef oracle)) acc').totalOutflow := by
  intro l
  induction l with
  | nil => intro acc acc' h1 h2; simpa [processTxs] using ⟨h1, h2⟩
  | cons sigInfo rest ih =>
    intro acc acc' h1 h2
    by_cases herr : sigInfo.err
    · have hc : countedRef oracle sigInfo = false := by
        simp [countedRef, herr]
      rw [List.filter_cons_of_neg (by simp [hc])]
      simp only [processTxs, herr, if_true]
      exact ih acc acc' h1 h2
    · cases horacle : oracle sigInfo.signature with
      | none =>
        have hc : countedRef oracle sigInfo = false := by
          simp [countedRef, resolvesRef, horacle]
        rw [List.filter_cons_of_neg (by simp [hc])]
        simp only [processTxs, herr, Bool.false_eq_true, if_false,
          horacle]
        exact ih _ acc' h1 h2
      | some tx =>
        cases hmeta : tx.meta with
        | none =>
          have hc : countedRef oracle sigInfo = false := by
            simp [countedRef, resolvesRef, horacle, hmeta]
          rw [List.filter_cons_of_neg (by simp [hc])]
          simp only [processTxs, herr, Bool.false_eq_true, if_false,
            horacle, hmeta]
          exact ih _ acc' h1 h2
        | some meta =>
          have hc : countedRef oracle sigInfo = true := by
            simp [countedRef, resolvesRef, herr, horacle, hmeta]
          rw [List.filter_cons_of_pos (by simp [hc])]
          simp only [processTxs, herr, Bool.false_eq_true, if_false,
            horacle, hmeta]
          apply ih
          · exact (applyDelta_flows_congr walletAddress tx meta _ _
              (by simpa using h1) (by simpa using h2)).1
          · exact (applyDelta_flows_congr walletAddress tx meta _ _
              (by simpa using h1) (by simpa using h2)).2

/-- C6: `transactionCount` counts exactly the references that are not
provider-failed and whose detail resolution succeeds; `err`-marked
references are never sent to `getTransaction` (the fetch trace is
precisely the non-failed references, in order); and the inflow and
outflow accumulators are unchanged if the skipped references are
removed up front (skipped references contribute nothing to the
flows). -/
theorem transactionCount_counts_resolved (oracle : TxOracle)
    (walletAddress : String) (maxTransactions : ℕ)
    (signatures : List SigInfo) :
    (analyzeWallet oracle walletAddress maxTransactions
        (.ok signatures)).transactionCount =
      (((signatures.take (min maxTransactions 100)).filter
        (countedRef oracle)).length) ∧
    (analyzeWalletRun oracle walletAddress maxTransactions
        (.ok signatures)).2 =
      ((signatures.take (min maxTransactions 100)).filter
        (fun s => !s.err)).map (·.signature) ∧
    (∀ l : List SigInfo,
      (processTxs oracle walletAddress l ⟨0, 0, 0, []⟩).totalInflow =
        (processTxs oracle walletAddress (l.filter (countedRef oracle))
          ⟨0, 0, 0, []⟩).totalInflow ∧
      (processTxs oracle walletAddress l ⟨0, 0, 0, []⟩).totalOutflow =
        (processTxs oracle walletAddress (l.filter (countedRef oracle))
          ⟨0, 0, 0, []⟩).totalOutflow) := by
  refine ⟨?_, ?_, fun l =>
    processTxs_flows_of_counted oracle walletAddress l _ _ rfl rfl⟩
  · by_cases hs : signatures.isEmpty
    · have : signatures = [] := List.isEmpty_iff.mp hs
      subst this
      simp [analyzeWallet, analyzeWalletRun, emptyFlow]
    · simp only [analyzeWallet, analyzeWalletRun, hs,
        Bool.false_eq_true, if_false]
      simpa using processTxs_processed oracle walletAddress
        (signatures.take (min maxTransactions 100)) ⟨0, 0, 0, []⟩
  · by_cases hs : signatures.isEmpty
    · have : signatures = [] := List.isEmpty_iff.mp hs
      subst this
      simp [analyzeWalletRun, emptyFlow]
    · simp only [analyzeWalletRun, hs, Bool.false_eq_true, if_false]
      simpa using processTxs_fetched oracle walletAddress
        (signatures.take (min maxTransactions 100)) ⟨0, 0, 0, []⟩

/-! ## C5: custom endpoints are never rotated away from -/

theorem rpcCall_custom_stays (oracle : String → RpcResponse)
    (rpcUrl : String) (hcustom : rpcUrl ∉ PUBLIC_RPC_ENDPOINTS) :
    ∀ (retryCount endpointsTried currentRpcIndex waitBefore : ℕ),
      ∀ a ∈ (rpcCall oracle rpcUrl retryCount endpointsTried
        currentRpcIndex waitBefore).attempts, a.url = rpcUrl
  | retryCount, endpointsTried, currentRpcIndex, waitBefore => by
    have hrot : getNextRpcEndpoint currentRpcIndex rpcUrl =
        (currentRpcIndex, none) := by
      simp [getNextRpcEndpoint, hcustom]
    rw [rpcCall]
    cases horacle : oracle rpcUrl with
    | status code =>
      by_cases hc : code = 429
      · simp only [hc, if_true, hrot]
        by_cases h3 : retryCount ≥ MAX_RETRIES
        · intro a ha
          simp only [dif_pos h3, List.mem_singleton] at ha
          subst ha
          rfl
        · intro a ha
          simp only [dif_neg h3, List.mem_cons] at ha
          rcases ha with rfl | ha
          · rfl
          · exact rpcCall_custom_stays oracle rpcUrl hcustom
              (retryCount + 1) endpointsTried currentRpcIndex
              (BASE_DELAY_MS * 2 ^ retryCount) a ha
      · by_cases hok : 200 ≤ code ∧ code < 300
        · intro a ha
          dsimp only at ha
          rw [if_neg hc, if_pos hok] at ha
          simp only [List.mem_singleton] at ha
          subst ha
          rfl
        · by_cases hsrv : code ≥ 500 ∨ code = 403 ∨ code = 401
          · intro a ha
            dsimp only at ha
            rw [if_neg hc, if_neg hok, if_pos hsrv] at ha
            simp only [hrot, List.mem_singleton] at ha
            subst ha
            rfl
          · intro a ha
            dsimp only at ha
            rw [if_neg hc, if_neg hok, if_neg hsrv] at ha
            simp only [List.mem_singleton] at ha
            subst ha
            rfl
    | networkError =>
      simp only [hrot]
      by_cases h3 : retryCount < MAX_RETRIES
      · intro a ha
        simp only [dif_pos h3, List.mem_cons] at ha
        rcases ha with rfl | ha
        · rfl
        · exact rpcCall_custom_stays oracle rpcUrl hcustom
            (retryCount + 1) endpointsTried currentRpcIndex
            (BASE_DELAY_MS * 2 ^ retryCount) a ha
      · intro a ha
        simp only [dif_neg h3, List.mem_singleton] at ha
        subst ha
        rfl
  termination_by retryCount _ _ _ => MAX_RETRIES + 1 - retryCount
  decreasing_by all_goals omega

/-- C5: a caller-supplied custom endpoint (one not in the fixed
public pool) is never rotated away from: `getNextRpcEndpoint`
returns `none` (leaving the rotation index unchanged), so every
attempt of a `rpcCall` that starts on the custom endpoint is made
against that same endpoint, whatever the responses are. -/
theorem custom_endpoint_never_rotated (oracle : String → RpcResponse)
    (rpcUrl : String)
    (retryCount endpointsTried currentRpcIndex waitBefore : ℕ)
    (hcustom : rpcUrl ∉ PUBLIC_RPC_ENDPOINTS) :
    getNextRpcEndpoint currentRpcIndex rpcUrl =
      (currentRpcIndex, none) ∧
    ∀ a ∈ (rpcCall oracle rpcUrl retryCount endpointsTried
      currentRpcIndex waitBefore).attempts, a.url = rpcUrl :=
  ⟨by simp [getNextRpcEndpoint, hcustom],
   rpcCall_custom_stays oracle rpcUrl hcustom retryCount
     endpointsTried currentRpcIndex waitBefore⟩

/-- Witness for C5: a concrete custom endpoint under a permanently
rate-limited oracle. -/
theorem custom_endpoint_never_rotated_witness :
    "https://my-node.example.com" ∉ PUBLIC_RPC_ENDPOINTS ∧
    (getNextRpcEndpoint 0 "https://my-node.example.com" = (0, none) ∧
    ∀ a ∈ (rpcCall (fun _ => .status 429) "https://my-node.example.com"
      0 1 0 0).attempts, a.url = "https://my-node.example.com") :=
  ⟨by decide,
   custom_endpoint_never_rotated (fun _ => .status 429)
     "https://my-node.example.com" 0 1 0 0 (by decide)⟩

/-! ## C3: backoff schedule -/

/-- C3 counterexample: `analyzeWalletHelius` retries a rate-limited
fetch with waits `1000 * (n + 1)` — the third retry (attempt n = 2)
waits 3000 ms, not `base * 2 ^ n`: the linear schedule
`[1000, 2000, 3000]` differs from the exponential one
`[1000, 2000, 4000]`, so the claim fails on the Helius retry path it
covers. -/
theorem helius_backoff_linear_cex :
    (analyzeWalletHelius (fun _ => .rateLimited) "w" 0).1 =
      [1000, 2000, 3000] ∧
    ([1000, 2000, 3000] : List ℕ) ≠
      [BASE_DELAY_MS * 2 ^ 0, BASE_DELAY_MS * 2 ^ 1,
       BASE_DELAY_MS * 2 ^ 2] := by
  constructor
  · simp [analyzeWalletHelius, errorFlow]
  · decide

/-- C3 amended: `rpcCall` retries of a rate-limited (429) or
network-failed call wait `BASE_DELAY_MS * 2 ^ n` (exponential) and
the call fails permanently once `MAX_RETRIES` is exceeded — likewise
the legacy `rpcCall` with base 500 ms and 5 retries, on both failure
classes — but `analyzeWalletHelius` rate-limit retries wait
`1000 * (n + 1)` ms (linear) and give up with a `Rate limited` error
after 3 retries. -/
theorem backoff_policy_amended (oracle noracle : String → RpcResponse)
    (rpcUrl walletAddress : String) (currentRpcIndex : ℕ)
    (hcustom : rpcUrl ∉ PUBLIC_RPC_ENDPOINTS)
    (horacle : oracle rpcUrl = .status 429)
    (hnet : noracle rpcUrl = .networkError) :
    rpcCall oracle rpcUrl 0 1 currentRpcIndex 0 =
      ⟨[⟨rpcUrl, 0⟩, ⟨rpcUrl, BASE_DELAY_MS * 2 ^ 0⟩,
        ⟨rpcUrl, BASE_DELAY_MS * 2 ^ 1⟩,
        ⟨rpcUrl, BASE_DELAY_MS * 2 ^ 2⟩],
       currentRpcIndex,
       .error "Rate limit exceeded on all endpoints. Please try again in a few minutes or use a dedicated RPC endpoint."⟩ ∧
    rpcCall noracle rpcUrl 0 1 currentRpcIndex 0 =
      ⟨[⟨rpcUrl, 0⟩, ⟨rpcUrl, BASE_DELAY_MS * 2 ^ 0⟩,
        ⟨rpcUrl, BASE_DELAY_MS * 2 ^ 1⟩,
        ⟨rpcUrl, BASE_DELAY_MS * 2 ^ 2⟩],
       currentRpcIndex, .error "network error"⟩ ∧
    rpcCallLegacy (fun _ => .status 429) 0 =
      ([500 * 2 ^ 0, 500 * 2 ^ 1, 500 * 2 ^ 2, 500 * 2 ^ 3,
        500 * 2 ^ 4],
       .error "Rate limit exceeded. Please use a dedicated RPC endpoint (Helius, QuickNode, etc.) or try again later.") ∧
    rpcCallLegacy (fun _ => .networkError) 0 =
      ([500 * 2 ^ 0, 500 * 2 ^ 1, 500 * 2 ^ 2, 500 * 2 ^ 3,
        500 * 2 ^ 4],
       .error "network error") ∧
    analyzeWalletHelius (fun _ => .rateLimited) walletAddress 0 =
      ([1000 * 1, 1000 * 2, 1000 * 3],
       errorFlow walletAddress "Rate limited") := by
  have hrot : ∀ i, getNextRpcEndpoint i rpcUrl = (i, none) := fun i => by
    simp [getNextRpcEndpoint, hcustom]
  refine ⟨?_, ?_, ?_, ?_, ?_⟩
  · simp [rpcCall, horacle, hrot, MAX_RETRIES, BASE_DELAY_MS]
  · simp [rpcCall, hnet, hrot, MAX_RETRIES, BASE_DELAY_MS]
  · simp [rpcCallLegacy]
  · simp [rpcCallLegacy]
  · simp [analyzeWalletHelius, errorFlow]

/-- Witness for the amended C3 at a concrete custom endpoint, under
a permanently rate-limited oracle and a permanently network-failing
oracle. -/
theorem backoff_policy_amended_witness :
    "https://my-rpc.example.org" ∉ PUBLIC_RPC_ENDPOINTS ∧
    (rpcCall (fun _ => .status 429) "https://my-rpc.example.org"
        0 1 7 0 =
      ⟨[⟨"https://my-rpc.example.org", 0⟩,
        ⟨"https://my-rpc.example.org", BASE_DELAY_MS * 2 ^ 0⟩,
        ⟨"https://my-rpc.example.org", BASE_DELAY_MS * 2 ^ 1⟩,
        ⟨"https://my-rpc.example.org", BASE_DELAY_MS * 2 ^ 2⟩],
       7,
       .error "Rate limit exceeded on all endpoints. Please try again in a few minutes or use a dedicated RPC endpoint."⟩ ∧
    rpcCall (fun _ => .networkError) "https://my-rpc.example.org"
        0 1 7 0 =
      ⟨[⟨"https://my-rpc.example.org", 0⟩,
        ⟨"https://my-rpc.example.org", BASE_DELAY_MS * 2 ^ 0⟩,
        ⟨"https://my-rpc.example.org", BASE_DELAY_MS * 2 ^ 1⟩,
        ⟨"https://my-rpc.example.org", BASE_DELAY_MS * 2 ^ 2⟩],
       7, .error "network error"⟩ ∧
    rpcCallLegacy (fun _ => .status 429) 0 =
      ([500 * 2 ^ 0, 500 * 2 ^ 1, 500 * 2 ^ 2, 500 * 2 ^ 3,
        500 * 2 ^ 4],
       .error "Rate limit exceeded. Please use a dedicated RPC endpoint (Helius, QuickNode, etc.) or try again later.") ∧
    rpcCallLegacy (fun _ => .networkError) 0 =
      ([500 * 2 ^ 0, 500 * 2 ^ 1, 500 * 2 ^ 2, 500 * 2 ^ 3,
        500 * 2 ^ 4],
       .error "network error") ∧
    analyzeWalletHelius (fun _ => .rateLimited) "w" 0 =
      ([1000 * 1, 1000 * 2, 1000 * 3], errorFlow "w" "Rate limited")) :=
  ⟨by decide,
   backoff_policy_amended (fun _ => .status 429)
     (fun _ => .networkError) "https://my-rpc.example.org" "w" 7
     (by decide) rfl rfl⟩

/-! ## C4: rotation termination -/

/-- C4 counterexample: with every pool endpoint permanently
rate-limited (HTTP 429), `rpcCall` from a fresh state does terminate
with an error, but makes `PUBLIC_RPC_ENDPOINTS.length + MAX_RETRIES`
= 5 attempts, not exactly one per endpoint (2): after rotation is
exhausted the final endpoint is retried with backoff `MAX_RETRIES`
more times. -/
theorem rotation_extra_attempts_cex :
    (rpcCall (fun _ => .status 429) DEFAULT_RPC 0 1 0 0).attempts.length =
      PUBLIC_RPC_ENDPOINTS.length + MAX_RETRIES ∧
    (rpcCall (fun _ => .status 429) DEFAULT_RPC 0 1 0 0).attempts.length ≠
      PUBLIC_RPC_ENDPOINTS.length ∧
    (rpcCall (fun _ => .status 429) DEFAULT_RPC 0 1 0 0).result =
      .error "Rate limit exceeded on all endpoints. Please try again in a few minutes or use a dedicated RPC endpoint." := by
  have h1 : (rpcCall (fun _ => .status 429) DEFAULT_RPC 0 1 0
      0).attempts.length = PUBLIC_RPC_ENDPOINTS.length + MAX_RETRIES := by
    simp [rpcCall, getNextRpcEndpoint, PUBLIC_RPC_ENDPOINTS,
      DEFAULT_RPC, MAX_RETRIES]
  refine ⟨h1, ?_, ?_⟩
  · rw [h1]; decide
  · simp [rpcCall, getNextRpcEndpoint, PUBLIC_RPC_ENDPOINTS,
      DEFAULT_RPC, MAX_RETRIES]

/-- C4 amended: when every pool endpoint permanently fails, `rpcCall`
always terminates with an error (no infinite rotation loop).  With
server errors (here 500) it makes exactly one attempt per endpoint in
the pool; with permanent rate limiting (429) or permanent network
errors it makes one attempt on the first endpoint plus
`1 + MAX_RETRIES` attempts on the endpoint it rotated to, i.e.
`PUBLIC_RPC_ENDPOINTS.length + MAX_RETRIES` attempts in total. -/
theorem rotation_termination_amended :
    ((rpcCall (fun _ => .status 500) DEFAULT_RPC 0 1 0 0).attempts.map
        (·.url) = PUBLIC_RPC_ENDPOINTS ∧
      (rpcCall (fun _ => .status 500) DEFAULT_RPC 0 1 0 0).result =
        .error "RPC request failed: 500") ∧
    ((rpcCall (fun _ => .status 429) DEFAULT_RPC 0 1 0 0).attempts.length =
        PUBLIC_RPC_ENDPOINTS.length + MAX_RETRIES ∧
      (rpcCall (fun _ => .status 429) DEFAULT_RPC 0 1 0 0).result =
        .error "Rate limit exceeded on all endpoints. Please try again in a few minutes or use a dedicated RPC endpoint.") ∧
    ((rpcCall (fun _ => .networkError) DEFAULT_RPC 0 1 0 0).attempts.length =
        PUBLIC_RPC_ENDPOINTS.length + MAX_RETRIES ∧
      (rpcCall (fun _ => .networkError) DEFAULT_RPC 0 1 0 0).result =
        .error "network error") := by
  refine ⟨⟨?_, ?_⟩, ⟨?_, ?_⟩, ⟨?_, ?_⟩⟩
  all_goals simp [rpcCall, getNextRpcEndpoint, PUBLIC_RPC_ENDPOINTS,
    DEFAULT_RPC, MAX_RETRIES]
  all_goals rfl

/-! ## C8: cross-wallet aggregate -/

theorem analyzeWallet_error_zero (oracle : TxOracle)
    (walletAddress : String) (maxTransactions : ℕ)
    (history : Except String (List SigInfo))
    (herr : (analyzeWallet oracle walletAddress maxTransactions
      history).error.isSome) :
    (analyzeWallet oracle walletAddress maxTransactions
        history).totalInflowSol = 0 ∧
    (analyzeWallet oracle walletAddress maxTransactions
        history).totalOutflowSol = 0 ∧
    (analyzeWallet oracle walletAddress maxTransactions
        history).netFlowSol = 0 ∧
    (analyzeWallet oracle walletAddress maxTransactions
        history).transactionCount = 0 := by
  cases history with
  | error msg => simp [analyzeWallet, analyzeWalletRun, errorFlow]
  | ok signatures =>
    by_cases hs : signatures.isEmpty
    · simp [analyzeWallet, analyzeWalletRun, hs, emptyFlow]
    · exfalso
      simp [analyzeWallet, analyzeWalletRun, hs] at herr

theorem analyzeWalletHelius_error_zero (oracle : ℕ → HeliusResponse)
    (walletAddress : String) :
    ∀ retryCount : ℕ,
      ((analyzeWalletHelius oracle walletAddress
          retryCount).2).error.isSome →
      ((analyzeWalletHelius oracle walletAddress
          retryCount).2).totalInflowSol = 0 ∧
      ((analyzeWalletHelius oracle walletAddress
          retryCount).2).totalOutflowSol = 0 ∧
      ((analyzeWalletHelius oracle walletAddress
          retryCount).2).netFlowSol = 0 ∧
      ((analyzeWalletHelius oracle walletAddress
          retryCount).2).transactionCount = 0
  | retryCount => by
    rw [analyzeWalletHelius]
    cases oracle retryCount with
    | rateLimited =>
      by_cases h3 : retryCount < 3
      · intro h
        simpa [h3] using
          analyzeWalletHelius_error_zero oracle walletAddress
            (retryCount + 1) (by simpa [h3] using h)
      · intro _
        simp [h3, errorFlow]
    | apiError status => intro _; simp [errorFlow]
    | thrown msg => intro _; simp [errorFlow]
    | txs transactions =>
      by_cases he : transactions.isEmpty
      · intro _; simp [he, emptyFlow]
      · intro h
        exfalso
        simp [he] at h
  termination_by retryCount => 3 + 1 - retryCount
  decreasing_by omega

theorem sum_map_filter_err {M : Type} [AddCommMonoid M]
    (f : WalletFlow → M) :
    ∀ l : List WalletFlow, (∀ r ∈ l, r.error.isSome → f r = 0) →
      (l.map f).sum =
        ((l.filter (fun r => r.error = none)).map f).sum := by
  intro l
  induction l with
  | nil => intro _; simp
  | cons r rest ih =>
    intro h
    have hrest := ih (fun x hx hs => h x (List.mem_cons_of_mem _ hx) hs)
    by_cases he : r.error = none
    · simp [he, hrest]
    · have hz : f r = 0 := h r (List.mem_cons_self r rest)
        (Option.ne_none_iff_isSome.mp he)
      simp [he, hz, hrest]

/-- The relationship C8 asserts between an aggregate and its result
list: `totalWallets` is the list length, each numeric aggregate field
is the sum of the corresponding per-wallet field over entries that
carry no error (error-bearing wallets contribute zero), and `errors`
counts the error-bearing entries. -/
def AggregateMatches (results : List WalletFlow) : Prop :=
  (computeAggregate results).totalWallets = results.length ∧
  (computeAggregate results).totalInflowSol =
    ((results.filter (fun r => r.error = none)).map
      (·.totalInflowSol)).sum ∧
  (computeAggregate results).totalOutflowSol =
    ((results.filter (fun r => r.error = none)).map
      (·.totalOutflowSol)).sum ∧
  (computeAggregate results).netFlowSol =
    ((results.filter (fun r => r.error = none)).map
      (·.netFlowSol)).sum ∧
  (computeAggregate results).totalTransactions =
    ((results.filter (fun r => r.error = none)).map
      (·.transactionCount)).sum ∧
  (computeAggregate results).errors =
    results.countP (fun r => r.error.isSome)

theorem aggregateMatches_of_error_zero (results : List WalletFlow)
    (h : ∀ r ∈ results, r.error.isSome →
      r.totalInflowSol = 0 ∧ r.totalOutflowSol = 0 ∧
      r.netFlowSol = 0 ∧ r.transactionCount = 0) :
    AggregateMatches results := by
  refine ⟨rfl, ?_, ?_, ?_, ?_, ?_⟩
  · exact sum_map_filter_err (·.totalInflowSol) results
      (fun r hr hs => (h r hr hs).1)
  · exact sum_map_filter_err (·.totalOutflowSol) results
      (fun r hr hs => (h r hr hs).2.1)
  · exact sum_map_filter_err (·.netFlowSol) results
      (fun r hr hs => (h r hr hs).2.2.1)
  · exact sum_map_filter_err (·.transactionCount) results
      (fun r hr hs => (h r hr hs).2.2.2)
  · simp [computeAggregate, List.countP_eq_length_filter]

/-- C8: for the result lists produced by either batch pipeline
(sequential `analyzeWallet` over the input wallets, or
`processWalletsParallel` over `analyzeWalletHelius`), the computed
aggregate satisfies `totalWallets = len(results)`, every numeric
field is the sum of the corresponding per-wallet field with
error-bearing wallets contributing zero, and `errors` counts the
error-bearing entries. -/
theorem aggregate_sums (txO : TxOracle)
    (histO : String → Except String (List SigInfo))
    (horacles : String → ℕ → HeliusResponse) (maxTransactions : ℕ)
    (wallets : List String) :
    AggregateMatches (wallets.map (fun w =>
      analyzeWallet txO w maxTransactions (histO w))) ∧
    AggregateMatches (processWalletsParallel
      (fun w => (analyzeWalletHelius (horacles w) w 0).2) wallets) := by
  constructor
  · apply aggregateMatches_of_error_zero
    intro r hr hs
    obtain ⟨w, _, rfl⟩ := List.mem_map.mp hr
    exact analyzeWallet_error_zero txO w maxTransactions (histO w) hs
  · rw [pwp_eq_map]
    apply aggregateMatches_of_error_zero
    intro r hr hs
    obtain ⟨w, _, rfl⟩ := List.mem_map.mp hr
    exact analyzeWalletHelius_error_zero (horacles w) w 0 hs

/-! ## C9: input validation -/

/-- A parsed request body.  `wallets = none` models a missing or
non-array `wallets` field; `maxTransactions` is the cap exactly as
sent by the caller. -/
structure RequestBody where
  wallets : Option (List String)
  maxTransactions : ℤ
deriving Repr, DecidableEq

/-- Outcome of the `POST` handler: a 400 rejection or a result
payload. -/
inductive PostResponse where
  | badRequest (msg : String)
  | ok (results : List WalletFlow) (aggregate : Aggregate)
deriving Repr, DecidableEq

/-- The input validation at route.ts lines 289-301: only the
`wallets` field is checked (missing / non-array / empty, then
oversized).  The `maxTransactions` cap is destructured at line 287
but never validated anywhere. -/
def validationError : Option (List String) → Option String
  | none => some "Please provide an array of wallet addresses"
  | some ws =>
    if ws.isEmpty then
      some "Please provide an array of wallet addresses"
    else if ws.length > 10000 then
      some "Maximum 10,000 wallets per request"
    else none

/-- `POST` (route.ts lines 284-339) with the per-wallet analysis
pipeline abstracted as `analyze`: validation runs before the price
fetch and the wallet loop, and the unvalidated cap is passed through
to every wallet analysis. -/
def POSTModel (analyze : String → ℤ → WalletFlow)
    (body : RequestBody) : PostResponse :=
  match validationError body.wallets with
  | some msg => .badRequest msg
  | none =>
    let ws := body.wallets.getD []
    let results := ws.map (fun w => analyze w body.maxTransactions)
    .ok results (computeAggregate results)

/-- C9 counterexample: a request with a valid wallet list but a
malformed transaction cap (-5) is not rejected: `POST` proceeds to
the analysis (its outcome depends on the network-facing analysis
function, so work is performed), contradicting the claim that a
malformed cap is rejected before any network activity. -/
theorem malformed_cap_not_rejected_cex :
    POSTModel (fun w _ => emptyFlow w) ⟨some ["A"], -5⟩ =
      .ok [emptyFlow "A"] (computeAggregate [emptyFlow "A"]) ∧
    POSTModel (fun w _ => emptyFlow w) ⟨some ["A"], -5⟩ ≠
      POSTModel (fun w _ => errorFlow w "boom") ⟨some ["A"], -5⟩ :=
  ⟨rfl, by decide⟩

/-- C9 amended: a request whose wallet list is missing (or not an
array), empty, or larger than 10000 entries is rejected with a 400
validation message before any network activity — the response is
computed without consulting the analysis pipeline at all — but the
transaction cap is never validated: a malformed cap flows unchecked
into the per-wallet analyses. -/
theorem input_validation_amended
    (analyze analyze' : String → ℤ → WalletFlow)
    (walletsField : Option (List String)) (cap : ℤ) (msg : String)
    (hval : validationError walletsField = some msg) :
    POSTModel analyze ⟨walletsField, cap⟩ = .badRequest msg ∧
    POSTModel analyze ⟨walletsField, cap⟩ =
      POSTModel analyze' ⟨walletsField, cap⟩ ∧
    validationError none =
      some "Please provide an array of wallet addresses" ∧
    (∀ ws : List String, ws.isEmpty →
      validationError (some ws) =
        some "Please provide an array of wallet addresses") ∧
    (∀ ws : List String, ws.length > 10000 →
      validationError (some ws) =
        some "Maximum 10,000 wallets per request") := by
  refine ⟨?_, ?_, rfl, ?_, ?_⟩
  · simp [POSTModel, hval]
  · simp [POSTModel, hval]
  · intro ws hws
    simp [validationError, hws]
  · intro ws hws
    have : ¬ws.isEmpty := by
      cases ws with
      | nil => simp at hws
      | cons a l => simp
    simp [validationError, this, hws]

/-- Witness for the amended C9: the empty wallet list is rejected
identically under two different analysis pipelines. -/
theorem input_validation_amended_witness :
    validationError (some []) =
      some "Please provide an array of wallet addresses" ∧
    (POSTModel (fun w _ => emptyFlow w) ⟨some [], -5⟩ =
      .badRequest "Please provide an array of wallet addresses" ∧
    POSTModel (fun w _ => emptyFlow w) ⟨some [], -5⟩ =
      POSTModel (fun w _ => errorFlow w "boom") ⟨some [], -5⟩ ∧
    validationError none =
      some "Please provide an array of wallet addresses" ∧
    (∀ ws : List String, ws.isEmpty →
      validationError (some ws) =
        some "Please provide an array of wallet addresses") ∧
    (∀ ws : List String, ws.length > 10000 →
      validationError (some ws) =
        some "Maximum 10,000 wallets per request")) :=
  ⟨rfl,
   input_validation_amended (fun w _ => emptyFlow w)
     (fun w _ => errorFlow w "boom") (some []) (-5)
     "Please provide an array of wallet addresses" rfl⟩

end WalletTracker
